import Mathlib

/-!
Shallow embedding of the on-disk metadata layer (src/pvlabel.rs) and the
in-memory VG model / extent allocator (src/vg.rs) of the melvin library.

Conventions of the embedding:
* A block device is a total function `dev : ℕ → ℕ` from byte address to byte
  value; all bytes actually constructed are < 256 (the source works on `u8`).
* Machine integers (`u32`, `u64`) are naturals; the source never relies on
  overflow in the modelled paths, and little-endian decoding of `w` bytes is
  a plain sum of `byte * 256 ^ k`.
* Fallible operations return `Except String α`, with the source's error
  message strings.
* I/O performed by `write_metadata` is modelled as a list of events so that
  ordering claims can be stated.
* The repository modules `util.rs`, `lv.rs`, `pv.rs` and `parser.rs` are not
  in the provided sources; the few facts needed from them (`align_to`,
  `crc32_calc`, `LV::used_extents`, the `PV`, `LV`, `Segment` field shapes)
  are modelled from the specification and marked as such.
-/

deriving instance DecidableEq for Except

/-- Modelled from the spec: `util::align_to` (util.rs is absent from the
provided sources).  Spec section 4.1: `align_up(n, m)` is the smallest
multiple of `m` that is `≥ n`. -/
def align_to (n m : ℕ) : ℕ := (n + m - 1) / m * m

/-- One step of the bit-reflected CRC-32 register update (polynomial
0xEDB88320). -/
def crcRound (c : ℕ) : ℕ := if c % 2 = 1 then (c / 2) ^^^ 0xEDB88320 else c / 2

/-- One byte of the CRC-32 register update: xor the byte in, then run the
eight rounds. -/
def crcByte (c b : ℕ) : ℕ :=
  crcRound (crcRound (crcRound (crcRound
    (crcRound (crcRound (crcRound (crcRound (c ^^^ b))))))))

/-- The CRC-32 register after processing the bytes in order.  The
accumulator is matched against numeral shapes at every byte so that kernel
reduction of concrete instances stays shallow; both branches continue with
the matched value unchanged. -/
def crc32_go : ℕ → List ℕ → ℕ
  | c, [] => c
  | c, b :: l =>
    match crcByte c b with
    | 0 => crc32_go 0 l
    | n + 1 => crc32_go (n + 1) l

/-- Modelled from the spec: `util::crc32_calc` (util.rs is absent from the
provided sources).  Spec section 4.1: CRC32, ISO-HDLC (bit-reversed)
polynomial, fixed initial register value 0xF597A6CF, no final xor.  Inputs
are byte values. -/
def crc32_calc (data : List ℕ) : ℕ := crc32_go 0xF597A6CF data

/-- The `len` bytes of the device starting at byte address `start`. -/
def readRange (dev : ℕ → ℕ) (start len : ℕ) : List ℕ :=
  (List.range len).map (fun i => dev (start + i))

/-- Little-endian decode of `width` bytes at offset `off` of a byte source. -/
def read_le (buf : ℕ → ℕ) (off width : ℕ) : ℕ :=
  (List.range width).foldr (fun i acc => acc * 256 + buf (off + i)) 0

/-- Little-endian decode of `width` bytes at offset `off` of a byte list
(out-of-range bytes read as 0; all uses are in range). -/
def read_leL (l : List ℕ) (off width : ℕ) : ℕ :=
  read_le (fun i => l.getD i 0) off width

/-- Little-endian encode of `n` into `w` bytes. -/
def toLE (w n : ℕ) : List ℕ := (List.range w).map (fun k => n / 256 ^ k % 256)

/-- Overwrite the bytes of `l` starting at index `i` with `data`
(the sub-slice writes of the source; all uses stay inside the list). -/
def writeBytes (l : List ℕ) (i : ℕ) (data : List ℕ) : List ℕ :=
  l.take i ++ data ++ l.drop (i + data.length)

/- ------------------------------------------------------------------ -/
/- Label header layer (pvlabel.rs lines 42-95).                        -/
/- ------------------------------------------------------------------ -/

/-- The in-memory label header (pvlabel.rs `LabelHeader`).  The `id` and
`label` fields keep the raw bytes instead of the source's lossy UTF-8
strings. -/
structure LabelHeader where
  id : List ℕ
  sector : ℕ
  crc : ℕ
  offset : ℕ
  label : List ℕ
deriving DecidableEq

/-- The bytes of the ASCII literal "LABELONE". -/
def labelOne : List ℕ := [76, 65, 66, 69, 76, 79, 78, 69]

/-- Does the sector with index `x` of the buffer begin with "LABELONE"
(pvlabel.rs line 55)? -/
def hasLabelAt (buf : ℕ → ℕ) (x : ℕ) : Bool :=
  decide (readRange buf (x * 512) 8 = labelOne)

/-- The scan loop of `LabelHeader::from_buf` (pvlabel.rs lines 53-76) over a
list of sector indices.  Note that the source reads the stored CRC and
compares it against `crc32_calc` of bytes 20..512, but the body of that `if`
is empty (lines 57-58), so a mismatch has no effect; the embedding therefore
records the stored CRC without enforcing it. -/
def labelScan (buf : ℕ → ℕ) : List ℕ → Except String LabelHeader
  | [] => .error "Label not found"
  | x :: rest =>
    if hasLabelAt buf x then
      if read_le buf (x * 512 + 8) 8 = x then
        .ok { id := readRange buf (x * 512) 8
              sector := read_le buf (x * 512 + 8) 8
              crc := read_le buf (x * 512 + 16) 4
              offset := read_le buf (x * 512 + 20) 4 + x * 512
              label := readRange buf (x * 512 + 24) 8 }
      else .error "Sector field should equal sector count"
    else labelScan buf rest

/-- `LabelHeader::from_buf` (pvlabel.rs lines 52-77): scan the first
`LABEL_SCAN_SECTORS = 4` sectors. -/
def LabelHeader.from_buf (buf : ℕ → ℕ) : Except String LabelHeader :=
  labelScan buf (List.range 4)

/- ------------------------------------------------------------------ -/
/- MDA layer (pvlabel.rs lines 97-428).                                -/
/- ------------------------------------------------------------------ -/

/-- An area within a PV (pvlabel.rs `PvArea`): byte offset from the start of
the device, and byte size. -/
structure PvArea where
  offset : ℕ
  size : ℕ
deriving DecidableEq

/-- The 16 bytes of `MDA_MAGIC` (pvlabel.rs line 38). -/
def mdaMagic : List ℕ := [32, 76, 86, 77, 50, 32, 120, 91, 53, 65, 37, 114, 48, 78, 42, 62]

/-- A raw location entry (pvlabel.rs `RawLocn`). -/
structure RawLocn where
  offset : ℕ
  size : ℕ
  checksum : ℕ
  ignored : Bool
deriving DecidableEq

/-- `PvHeader::get_rlocn0` (pvlabel.rs lines 266-268 together with
`RawLocnIter::next`, lines 155-173): decode the raw_locn at header offset 40;
an entry whose `offset` field is 0 terminates the list, so it yields `none`.
`ignored` is bit 0 of the 32-bit flag word. -/
def get_rlocn0 (hdr : List ℕ) : Option RawLocn :=
  let off := read_leL hdr 40 8
  if off = 0 then none
  else some { offset := off
              size := read_leL hdr 48 8
              checksum := read_leL hdr 56 4
              ignored := read_leL hdr 60 4 % 2 = 1 }

/-- `PvHeader::set_rlocn0` (pvlabel.rs lines 270-280): write the raw_locn
fields at header offset 40. -/
def set_rlocn0 (hdr : List ℕ) (rl : RawLocn) : List ℕ :=
  writeBytes hdr 40
    (toLE 8 rl.offset ++ toLE 8 rl.size ++ toLE 4 rl.checksum ++
     toLE 4 (if rl.ignored then 1 else 0))

/-- `PvHeader::read_mda_header` (pvlabel.rs lines 390-416): read the 512-byte
MDA header of an area and validate it (assertion that the area is larger than
the header, CRC over bytes 4..512 against the stored u32 at bytes 0..4, the
magic at bytes 4..20, version 1 at bytes 20..24). -/
def read_mda_header (dev : ℕ → ℕ) (area : PvArea) : Except String (List ℕ) :=
  if area.size ≤ 512 then .error "assertion failed: area.size > MDA_HEADER_SIZE"
  else
    let hdr := readRange dev area.offset 512
    if read_leL hdr 0 4 ≠ crc32_calc (hdr.drop 4) then
      .error "MDA header checksum failure"
    else if (hdr.drop 4).take 16 ≠ mdaMagic then
      .error "magic mismatch"
    else if read_leL hdr 20 4 ≠ 1 then
      .error "Bad version, expected 1"
    else .ok hdr

/-- The text-record assembly performed by `PvHeader::read_metadata`
(pvlabel.rs lines 300-310), on an area at byte offset `aoff` of byte size
`asize`, for the current raw_locn `(off, size)`: a zeroed buffer of `size`
bytes receives `first_read = min (asize - off) size` bytes read at
`aoff + off`; if `first_read ≠ size` the source then reads into the
sub-slice `text[size - first_read ..]` (whose length is `first_read`)
starting at `aoff + 512`. -/
def read_metadata_text_code (dev : ℕ → ℕ) (aoff asize off size : ℕ) : List ℕ :=
  let first_read := min (asize - off) size
  let step1 := readRange dev (aoff + off) first_read ++ List.replicate (size - first_read) 0
  if first_read = size then step1
  else step1.take (size - first_read) ++ readRange dev (aoff + 512) first_read

/-- Modelled from the spec: the wrap-around read of section 4.4 ("Read
`area.size − offset` bytes from `area_off + offset`, then read
`size − (area.size − offset)` bytes from `area_off + 512` and concatenate"),
stated for comparison with `read_metadata_text_code`. -/
def read_metadata_text_spec (dev : ℕ → ℕ) (aoff asize off size : ℕ) : List ℕ :=
  if off + size ≤ asize then readRange dev (aoff + off) size
  else
    readRange dev (aoff + off) (asize - off) ++
    readRange dev (aoff + 512) (size - (asize - off))

/-- `PvHeader::read_metadata` (pvlabel.rs lines 285-320) up to the final
`buf_to_textmap` call (the text parser lives in the absent parser.rs; the
embedding returns the validated text blob that the source would hand to it).
For each metadata area in order: a header that fails validation propagates
its error immediately (the source's `try!`); a missing raw_locn 0 or an
ignored one moves on to the next area; a text checksum mismatch returns an
error immediately; otherwise the assembled text is returned. -/
def read_metadata (dev : ℕ → ℕ) : List PvArea → Except String (List ℕ)
  | [] => .error "No valid metadata found"
  | area :: rest =>
    match read_mda_header dev area with
    | .error e => .error e
    | .ok hdr =>
      match get_rlocn0 hdr with
      | none => read_metadata dev rest
      | some rl =>
        if rl.ignored then read_metadata dev rest
        else
          let text := read_metadata_text_code dev area.offset area.size rl.offset rl.size
          if rl.checksum ≠ crc32_calc text then .error "MDA text checksum failure"
          else .ok text

/-- The start offset chosen by `PvHeader::write_metadata` for the next text
record (pvlabel.rs lines 350-355): `min(512, align_to(off + size, 512) %
area.size)`. -/
def start_off_code (off size asize : ℕ) : ℕ :=
  min 512 (align_to (off + size) 512 % asize)

/-- Modelled from the spec: the choice of next write offset of section 4.4
(`start = align_up(off + size, 512)`, wrapping to 512 when `start ≥
area.size`), stated for comparison with `start_off_code`. -/
def start_off_spec (off size asize : ℕ) : ℕ :=
  let s := align_to (off + size) 512
  if asize ≤ s then 512 else s

/-- An I/O action of the metadata commit path: a write of bytes at an
absolute device byte address, or a durability barrier.  The source issues
only writes (there is no flush or sync call in pvlabel.rs); `barrier` is in
the vocabulary so that the spec's commit order can be stated. -/
inductive IoEvent where
  | write (addr : ℕ) (bytes : List ℕ)
  | barrier
deriving DecidableEq

/-- The data bytes carried by an event. -/
def IoEvent.data : IoEvent → List ℕ
  | .write _ d => d
  | .barrier => []

/-- The header bytes produced by `PvHeader::write_mda_header` (pvlabel.rs
lines 419-428): recompute the CRC over bytes 4..512 and store it at bytes
0..4. -/
def write_mda_header_bytes (hdr : List ℕ) : List ℕ :=
  writeBytes hdr 0 (toLE 4 (crc32_calc (hdr.drop 4)))

/-- The single device write performed by `PvHeader::write_mda_header`: the
full 512-byte header sector at the area's offset. -/
def write_mda_header_events (area : PvArea) (hdr : List ℕ) : List IoEvent :=
  [.write area.offset (write_mda_header_bytes hdr)]

/-- The initial raw_locn template used by `write_metadata` when the MDA has
no live raw_locn (pvlabel.rs lines 332-340), and the current one otherwise. -/
def rlocn0_or_init (hdr : List ℕ) : RawLocn :=
  (get_rlocn0 hdr).getD { offset := 512, size := 0, checksum := 0, ignored := false }

/-- One iteration of the `write_metadata` loop (pvlabel.rs lines 328-385)
over a single metadata area, as the list of device writes it performs.
`text` is the serialized map with the trailing NUL already appended.  A
header that fails validation propagates its error; an area whose raw_locn 0
is ignored contributes no events (`continue`); otherwise the text is written
(split across the wrap point when it does not fit below the end of the
area), and then the updated header sector is written.  The source's two
`assert_eq!` statements are modelled as an error branch. -/
def write_area (dev : ℕ → ℕ) (area : PvArea) (text : List ℕ) :
    Except String (List IoEvent) :=
  match read_mda_header dev area with
  | .error e => .error e
  | .ok hdr =>
    let rl := rlocn0_or_init hdr
    if rl.ignored then .ok []
    else
      let so := start_off_code rl.offset rl.size area.size
      let tail_space := area.size - so
      if so % 512 = 0 ∧ tail_space % 512 = 0 then
        let written := if tail_space ≠ 0 then min tail_space text.length else 0
        let ev1 : List IoEvent :=
          if tail_space ≠ 0 then [.write (area.offset + so) (text.take written)] else []
        let ev2 : List IoEvent :=
          if written ≠ text.length then [.write (area.offset + 512) (text.drop written)] else []
        let hdr2 := set_rlocn0 hdr
          { offset := so, size := text.length, checksum := crc32_calc text,
            ignored := rl.ignored }
        .ok (ev1 ++ ev2 ++ write_mda_header_events area hdr2)
      else .error "assertion failed"

/-- The `write_metadata` loop over all metadata areas in order; the first
failing area aborts (the source's `try!`). -/
def write_areas (dev : ℕ → ℕ) (text : List ℕ) : List PvArea → Except String (List IoEvent)
  | [] => .ok []
  | area :: rest =>
    match write_area dev area text with
    | .error e => .error e
    | .ok evs =>
      match write_areas dev text rest with
      | .error e => .error e
      | .ok evs2 => .ok (evs ++ evs2)

/-- `PvHeader::write_metadata` (pvlabel.rs lines 323-388) as its event
trace: `mapBytes` stands for `textmap_to_buf(map)` (the serializer lives in
the absent parser.rs); the source appends one NUL byte and commits the
result to every metadata area in order. -/
def write_metadata_events (dev : ℕ → ℕ) (areas : List PvArea) (mapBytes : List ℕ) :
    Except String (List IoEvent) :=
  write_areas dev (mapBytes ++ [0]) areas

/- ------------------------------------------------------------------ -/
/- VG model and extent allocator (vg.rs).                              -/
/- ------------------------------------------------------------------ -/

/-- Modelled from the spec: the `PV` struct (pv.rs is absent from the
provided sources).  vg.rs only reads its `pe_count` field, the number of
extents the PV contributes (spec section 3). -/
structure PV where
  pe_count : ℕ
deriving DecidableEq

/-- Modelled from the spec: the `Segment` struct (lv.rs is absent from the
provided sources); the field shapes are those constructed by
`VG::new_linear_lv` (vg.rs lines 69-75) and described in spec section 3. -/
structure Segment where
  name : String
  start_extent : ℕ
  extent_count : ℕ
  ty : String
  stripes : List (String × ℕ)
deriving DecidableEq

/-- Modelled from the spec: the `LV` struct (lv.rs is absent from the
provided sources); the field shapes are those constructed by
`VG::new_linear_lv` (vg.rs lines 77-85). -/
structure LV where
  name : String
  id : String
  status : List String
  flags : List String
  creation_host : String
  creation_time : Int
  segments : List Segment
deriving DecidableEq

/-- Strict byte-wise lexicographic order on strings: the iteration order of
Rust's `BTreeMap<String, _>` (identical to the codepoint order on the ASCII
names used throughout). -/
def charListLt : List Char → List Char → Bool
  | [], [] => false
  | [], _ :: _ => true
  | _ :: _, [] => false
  | a :: as, b :: bs =>
    if a = b then charListLt as bs else decide (a.val < b.val)

/-- Strict order on the underlying character lists of two strings. -/
def strLt (a b : String) : Bool := charListLt a.data b.data

/-- Lookup in an association-list model of `BTreeMap` (`get` /
`contains_key`). -/
def mapFind? {κ ν : Type} [DecidableEq κ] : List (κ × ν) → κ → Option ν
  | [], _ => none
  | (k2, v2) :: rest, k => if k = k2 then some v2 else mapFind? rest k

/-- `BTreeMap::contains_key` on the association-list model. -/
def mapContains {κ ν : Type} [DecidableEq κ] (m : List (κ × ν)) (k : κ) : Bool :=
  (mapFind? m k).isSome

/-- `BTreeMap::insert` on the association-list model: replace the value of
an existing key, otherwise insert at the position given by the strict order
`lt`, so that a map built by insertions is iterated in ascending key order
exactly as the source's `BTreeMap`. -/
def mapInsert {κ ν : Type} [DecidableEq κ] (lt : κ → κ → Bool) :
    List (κ × ν) → κ → ν → List (κ × ν)
  | [], k, v => [(k, v)]
  | (k2, v2) :: rest, k, v =>
    if k = k2 then (k, v) :: rest
    else if lt k k2 then (k, v) :: (k2, v2) :: rest
    else (k2, v2) :: mapInsert lt rest k v

/-- The strict order on ℕ as a Bool, for ℕ-keyed maps. -/
def natLt (a b : ℕ) : Bool := decide (a < b)

/-- The `VG` struct (vg.rs lines 13-27); the two `BTreeMap` fields are
sorted association lists. -/
structure VG where
  name : String
  id : String
  seqno : ℕ
  format : String
  status : List String
  flags : List String
  extent_size : ℕ
  max_lv : ℕ
  max_pv : ℕ
  metadata_copies : ℕ
  pvs : List (String × PV)
  lvs : List (String × LV)
deriving DecidableEq

/-- Modelled from the spec: `LV::used_extents` (lv.rs is absent from the
provided sources).  Spec section 4.6: `extents_in_use` sums `extent_count`
across all segments of all LVs, so an LV's own usage is the sum over its
segments. -/
def LV.used_extents (lv : LV) : ℕ :=
  (lv.segments.map (fun s => s.extent_count)).sum

/-- `VG::extents_in_use` (vg.rs lines 30-35). -/
def VG.extents_in_use (vg : VG) : ℕ :=
  (vg.lvs.map (fun p => p.2.used_extents)).sum

/-- `VG::extents` (vg.rs lines 41-46). -/
def VG.extents (vg : VG) : ℕ :=
  (vg.pvs.map (fun p => p.2.pe_count)).sum

/-- `VG::extents_free` (vg.rs lines 37-39). -/
def VG.extents_free (vg : VG) : ℕ := vg.extents - vg.extents_in_use

/-- `VG::used_areas` (vg.rs lines 98-112): for every stripe of every segment
of every LV (LVs in name order), insert `start ↦ extent_count` into the
inner map of the stripe's PV. -/
def VG.used_areas (vg : VG) : List (String × List (ℕ × ℕ)) :=
  vg.lvs.foldl
    (fun used_map p =>
      p.2.segments.foldl
        (fun um seg =>
          seg.stripes.foldl
            (fun um2 st =>
              mapInsert strLt um2 st.1
                (mapInsert natLt ((mapFind? um2 st.1).getD []) st.2 seg.extent_count))
            um)
        used_map)
    []

/-- `VG::free_areas` (vg.rs lines 114-134): for each PV **present in
`used_areas`**, insert a `pe_count ↦ 0` sentinel and fold over the used
ranges accumulating `prev_end`, recording each gap `prev_end ↦ start -
prev_end`.  The source `expect`s that the PV named by the used map exists;
the embedding returns the map unchanged in that (unreachable for stripes
naming existing PVs) case. -/
def VG.free_areas (vg : VG) : List (String × List (ℕ × ℕ)) :=
  vg.used_areas.foldl
    (fun free_map p =>
      match mapFind? vg.pvs p.1 with
      | none => free_map
      | some pv =>
        let area_map := mapInsert natLt p.2 pv.pe_count 0
        (area_map.foldl
          (fun (st : List (String × List (ℕ × ℕ)) × ℕ) a =>
            let fm := if st.2 < a.1 then
                mapInsert strLt st.1 p.1
                  (mapInsert natLt ((mapFind? st.1 p.1).getD []) st.2 (a.1 - st.2))
              else st.1
            (fm, a.1 + a.2))
          (free_map, 0)).1)
    []

/-- One step of the allocator search loop of `VG::new_linear_lv` (vg.rs
lines 54-61): within a PV's free ranges, the first range of length
`≥ extent_size` is taken (the `break` leaves the inner loop only), and a PV
with no fitting range leaves the accumulator unchanged. -/
def contig_step (extent_size : ℕ) (acc : Option (String × ℕ))
    (p : String × List (ℕ × ℕ)) : Option (String × ℕ) :=
  match p.2.find? (fun a => decide (extent_size ≤ a.2)) with
  | some a => some (p.1, a.1)
  | none => acc

/-- The allocator search of `VG::new_linear_lv` (vg.rs lines 53-61): fold
`contig_step` over the free areas in PV-name order. -/
def find_contig (fa : List (String × List (ℕ × ℕ))) (extent_size : ℕ) :
    Option (String × ℕ) :=
  fa.foldl (contig_step extent_size) none

/-- `VG::new_linear_lv` (vg.rs lines 48-96).  The source's calls to
`Uuid::new_v4`, `uname` and `now` are external inputs and appear as the
parameters `lvid`, `host` and `t`.  Returns the error (if any) together with
the resulting state, mirroring `&mut self -> Result<()>`. -/
def VG.new_linear_lv (vg : VG) (name lvid host : String) (t : Int)
    (extent_size : ℕ) : Option String × VG :=
  if mapContains vg.lvs name then (some "LV already exists", vg)
  else
    match find_contig vg.free_areas extent_size with
    | none => (some "no contiguous area for new LV", vg)
    | some pa =>
      let segment : Segment :=
        { name := "segment1"
          start_extent := pa.2
          extent_count := extent_size
          ty := "striped"
          stripes := [(pa.1, pa.2)] }
      let lv : LV :=
        { name := name
          id := lvid
          status := ["READ", "WRITE", "VISIBLE"]
          flags := []
          creation_host := host
          creation_time := t
          segments := [segment] }
      (none, { vg with lvs := mapInsert strLt vg.lvs name lv })

/- ------------------------------------------------------------------ -/
/- Concrete fixtures used by the witnesses and counterexamples.        -/
/- ------------------------------------------------------------------ -/

/-- A valid MDA header body (bytes 4..512): magic, version 1, no raw_locn. -/
def hdrBodyNoRlocn : List ℕ := mdaMagic ++ toLE 4 1 ++ List.replicate 488 0

/-- A valid MDA header with no raw_locn; 148126406 is `crc32_calc
hdrBodyNoRlocn` (the claim proofs below evaluate `read_mda_header` on it, so
the value is checked by the kernel). -/
def hdrNoRlocn : List ℕ := toLE 4 148126406 ++ hdrBodyNoRlocn

/-- A valid MDA header body whose raw_locn 0 is `(512, 0)` with the ignored
flag (bit 0 of the flag word) set. -/
def hdrBodyIgnored : List ℕ :=
  mdaMagic ++ toLE 4 1 ++ toLE 8 0 ++ toLE 8 0 ++
  toLE 8 512 ++ toLE 8 0 ++ toLE 4 0 ++ toLE 4 1 ++ List.replicate 448 0

/-- A valid MDA header with an ignored raw_locn 0; 1215719041 is `crc32_calc
hdrBodyIgnored`. -/
def hdrIgnored : List ℕ := toLE 4 1215719041 ++ hdrBodyIgnored

/-- A valid MDA header body whose raw_locn 0 is a live record at offset 512
of size 512. -/
def hdrBodyR512 : List ℕ :=
  mdaMagic ++ toLE 4 1 ++ toLE 8 0 ++ toLE 8 0 ++
  toLE 8 512 ++ toLE 8 512 ++ toLE 4 0 ++ toLE 4 0 ++ List.replicate 448 0

/-- A valid MDA header whose raw_locn 0 is `(512, 512)`; 3317826565 is
`crc32_calc hdrBodyR512`. -/
def hdrR512 : List ℕ := toLE 4 3317826565 ++ hdrBodyR512

/-- A valid MDA header body whose raw_locn 0 is a one-byte record at offset
512 with the matching text checksum; 1855885633 is `crc32_calc [88]`. -/
def hdrBodyRlocn1 : List ℕ :=
  mdaMagic ++ toLE 4 1 ++ toLE 8 0 ++ toLE 8 0 ++
  toLE 8 512 ++ toLE 8 1 ++ toLE 4 1855885633 ++ toLE 4 0 ++ List.replicate 448 0

/-- A valid MDA header whose raw_locn 0 is `(512, 1)`; 3211022463 is
`crc32_calc hdrBodyRlocn1`. -/
def hdrRlocn1 : List ℕ := toLE 4 3211022463 ++ hdrBodyRlocn1

/-- Device with one metadata area at offset 0 whose header is valid and has
a live raw_locn `(512, 512)`. -/
def dev1 : ℕ → ℕ := fun a => if a < 512 then hdrR512.getD a 0 else 0

/-- Device for the wrap-read comparison: every byte reads 7. -/
def dev2 : ℕ → ℕ := fun _ => 7

/-- A 4-sector label buffer: "LABELONE" at sector 0, sector field 0, stored
label CRC 0, everything else 0 (so the stored CRC does not match the CRC of
bytes 20..512). -/
def c5buf : ℕ → ℕ := fun a => if a < 8 then labelOne.getD a 0 else 0

/-- Device with two metadata areas: the first (at offset 0) has an all-zero
header, which fails the header CRC check; the second (at offset 8192) has a
valid header with a live one-byte record (value 88) at area offset 512. -/
def dev6 : ℕ → ℕ := fun a =>
  if a < 4096 then 0
  else if 8192 ≤ a ∧ a < 8704 then hdrRlocn1.getD (a - 8192) 0
  else if a = 8704 then 88
  else 0

/-- Device with one metadata area at offset 0 whose header is valid and has
no raw_locn (first-commit state). -/
def dev7 : ℕ → ℕ := fun a => if a < 512 then hdrNoRlocn.getD a 0 else 0

/-- Device with two metadata areas: the first (at offset 0) has a valid
header whose raw_locn 0 is ignored; the second (at offset 8192) has a valid
header with no raw_locn. -/
def dev10 : ℕ → ℕ := fun a =>
  if a < 512 then hdrIgnored.getD a 0
  else if 8192 ≤ a ∧ a < 8704 then hdrNoRlocn.getD (a - 8192) 0
  else 0

/-- A 4-sector label buffer with "LABELONE" at sector 1 (sector 0 blank) and
sector field 1. -/
def c9buf : ℕ → ℕ := fun a =>
  if a < 512 then 0
  else if a = 512 then 76 else if a = 513 then 65 else if a = 514 then 66
  else if a = 515 then 69 else if a = 516 then 76 else if a = 517 then 79
  else if a = 518 then 78 else if a = 519 then 69
  else if a = 520 then 1
  else 0

/-- An LV with one segment of `n` extents striped on `(pvname, start)`. -/
def mkLv (nm pvname : String) (start n : ℕ) : LV :=
  { name := nm, id := "id-" ++ nm, status := ["READ", "WRITE", "VISIBLE"]
    flags := [], creation_host := "host", creation_time := 0
    segments := [{ name := "segment1", start_extent := start, extent_count := n
                   ty := "striped", stripes := [(pvname, start)] }] }

/-- VG with two 10-extent PVs "a" and "b", each with one 2-extent LV at
extent 0, so both have the free range `(2, 8)`. -/
def c3vg : VG :=
  { name := "vg3", id := "vg3-id", seqno := 1, format := "lvm2"
    status := [], flags := [], extent_size := 8192, max_lv := 0, max_pv := 0
    metadata_copies := 0
    pvs := [("a", { pe_count := 10 }), ("b", { pe_count := 10 })]
    lvs := [("u", mkLv "u" "a" 0 2), ("v", mkLv "v" "b" 0 2)] }

/-- VG with one 10-extent PV and no LVs. -/
def c4vg : VG :=
  { name := "vg4", id := "vg4-id", seqno := 1, format := "lvm2"
    status := [], flags := [], extent_size := 8192, max_lv := 0, max_pv := 0
    metadata_copies := 0
    pvs := [("pv0", { pe_count := 10 })]
    lvs := [] }

/-- The event trace of a commit of map bytes `[97]` to the single metadata
area of `dev1` (live raw_locn `(512, 512)`): the text lands at byte 512 —
on top of the live record — and then the header sector is rewritten. -/
def evs1 : List IoEvent :=
  [.write 512 [97, 0],
   .write 0 (write_mda_header_bytes (set_rlocn0 hdrR512
     { offset := 512, size := 2, checksum := crc32_calc [97, 0], ignored := false }))]

/-- The event trace of a commit of map bytes `[97]` to the single metadata
area of `dev7` (empty MDA): the text at byte 512, then the header sector. -/
def evs7 : List IoEvent :=
  [.write 512 [97, 0],
   .write 0 (write_mda_header_bytes (set_rlocn0 hdrNoRlocn
     { offset := 512, size := 2, checksum := crc32_calc [97, 0], ignored := false }))]

/-- VG with one 10-extent PV carrying a 3-extent LV at extent 0, so the free
range is `(3, 7)`. -/
def vg0 : VG :=
  { name := "vg0", id := "vg0-id", seqno := 1, format := "lvm2"
    status := [], flags := [], extent_size := 8192, max_lv := 0, max_pv := 0
    metadata_copies := 0
    pvs := [("pv0", { pe_count := 10 })]
    lvs := [("lv0", mkLv "lv0" "pv0" 0 3)] }

/- ------------------------------------------------------------------ -/
/- Helper lemmas.                                                      -/
/- ------------------------------------------------------------------ -/

/-- Looking up the key just inserted yields the inserted value. -/
theorem mapFind?_mapInsert_self {κ ν : Type} [DecidableEq κ] (lt : κ → κ → Bool)
    (m : List (κ × ν)) (k : κ) (v : ν) :
    mapFind? (mapInsert lt m k v) k = some v := by
  induction m with
  | nil => simp [mapInsert, mapFind?]
  | cons p rest ih =>
    obtain ⟨k2, v2⟩ := p
    by_cases hk : k = k2
    · simp [mapInsert, hk, mapFind?]
    · by_cases hlt : lt k k2
      · simp [mapInsert, hk, hlt, mapFind?]
      · simp [mapInsert, hk, hlt, mapFind?, ih]

/-- Inserting a key that is not present adds its measure to the sum of a
measure `f` over the entries. -/
theorem sum_map_mapInsert {κ ν : Type} [DecidableEq κ] (lt : κ → κ → Bool)
    (f : κ × ν → ℕ) (m : List (κ × ν)) (k : κ) (v : ν)
    (h : mapContains m k = false) :
    ((mapInsert lt m k v).map f).sum = (m.map f).sum + f (k, v) := by
  induction m with
  | nil => simp [mapInsert]
  | cons p rest ih =>
    obtain ⟨k2, v2⟩ := p
    have hk : ¬ k = k2 := by
      intro hkk
      simp [mapContains, mapFind?, hkk] at h
    have h2 : mapContains rest k = false := by
      simpa [mapContains, mapFind?, hk] using h
    by_cases hlt : lt k k2
    · simp [mapInsert, hk, hlt]
      omega
    · simp [mapInsert, hk, hlt, ih h2]
      omega

/-- Soundness of the allocator fold: a produced placement comes either from
the accumulator or from a free range of length at least the request inside
the folded list. -/
theorem contig_foldl_sound (n : ℕ) (fa : List (String × List (ℕ × ℕ))) :
    ∀ (acc : Option (String × ℕ)) (pv : String) (s : ℕ),
      fa.foldl (contig_step n) acc = some (pv, s) →
      acc = some (pv, s) ∨
        ∃ areas len, (pv, areas) ∈ fa ∧ (s, len) ∈ areas ∧ n ≤ len := by
  induction fa with
  | nil => intro acc pv s h; exact Or.inl h
  | cons p rest ih =>
    obtain ⟨pvn, areas0⟩ := p
    intro acc pv s h
    rw [List.foldl_cons] at h
    rcases ih (contig_step n acc (pvn, areas0)) pv s h with h1 | ⟨areas, len, hm, hs, hn⟩
    · simp only [contig_step] at h1
      cases hf : areas0.find? (fun a => decide (n ≤ a.2)) with
      | none => rw [hf] at h1; exact Or.inl h1
      | some a =>
        rw [hf] at h1
        obtain ⟨s2, len2⟩ := a
        simp only [Option.some.injEq, Prod.mk.injEq] at h1
        obtain ⟨hpv, hs2⟩ := h1
        subst hpv; subst hs2
        right
        refine ⟨areas0, len2, List.mem_cons_self _ _, List.mem_of_find?_eq_some hf, ?_⟩
        simpa using List.find?_some hf
    · exact Or.inr ⟨areas, len, List.mem_cons_of_mem _ hm, hs, hn⟩

/-- Soundness of `find_contig`: a produced placement names a free range of
length at least the request. -/
theorem find_contig_sound (n : ℕ) (fa : List (String × List (ℕ × ℕ)))
    (pv : String) (s : ℕ) (h : find_contig fa n = some (pv, s)) :
    ∃ areas len, (pv, areas) ∈ fa ∧ (s, len) ∈ areas ∧ n ≤ len := by
  rcases contig_foldl_sound n fa none pv s h with h1 | h2
  · exact absurd h1 (by simp)
  · exact h2

/-- A sector without the label magic is skipped by the scan. -/
theorem labelScan_skip (buf : ℕ → ℕ) (x : ℕ) (rest : List ℕ)
    (h : hasLabelAt buf x = false) :
    labelScan buf (x :: rest) = labelScan buf rest := by
  simp [labelScan, h]

/-- A sector with the label magic stops the scan and decides the result. -/
theorem labelScan_hit (buf : ℕ → ℕ) (x : ℕ) (rest : List ℕ)
    (h : hasLabelAt buf x = true) :
    labelScan buf (x :: rest) =
      if read_le buf (x * 512 + 8) 8 = x then
        .ok { id := readRange buf (x * 512) 8, sector := read_le buf (x * 512 + 8) 8,
              crc := read_le buf (x * 512 + 16) 4,
              offset := read_le buf (x * 512 + 20) 4 + x * 512,
              label := readRange buf (x * 512 + 24) 8 }
      else .error "Sector field should equal sector count" := by
  simp [labelScan, h]

/- ------------------------------------------------------------------ -/
/- Claim theorems.                                                     -/
/- ------------------------------------------------------------------ -/

set_option maxRecDepth 40000 in
/-- C1: the claim says the next record starts at `align_up(off + size, 512)`
(wrapping to 512 only when that start reaches the area size), so successive
commits advance through the ring.  The source instead computes
`min(512, align_to(off + size, 512) % area.size)`: for the live raw_locn
`(512, 512)` in a 4096-byte area the spec start is 1024 but the code start
is 512, and the commit trace on such an MDA writes the new text at byte 512,
on top of the live record, rather than at 1024. -/
theorem c1_start_off_divergence :
    start_off_code 512 512 4096 = 512 ∧
    start_off_spec 512 512 4096 = 1024 ∧
    start_off_code 512 512 4096 ≠ start_off_spec 512 512 4096 ∧
    write_metadata_events dev1 [{ offset := 0, size := 4096 }] [97] = .ok evs1 := by
  decide

set_option maxRecDepth 40000 in
/-- C2: the claim says a wrapped record is assembled as the
`area.size - offset` bytes at `area.offset + offset` followed by the
remaining `size - (area.size - offset)` bytes at `area.offset + 512`.  The
source instead reads `first_read` bytes at `area.offset + 512` into the
sub-slice starting at `size - first_read`: on a device of constant byte 7
with `area = (0, 4096)` and raw_locn `(3584, 1536)` the assembled buffer
keeps a zero gap (byte 512 is 0) where the spec assembly has the read
byte 7, so the two assemblies differ. -/
theorem c2_wrap_read_divergence :
    read_metadata_text_code dev2 0 4096 3584 1536 ≠
      read_metadata_text_spec dev2 0 4096 3584 1536 ∧
    (read_metadata_text_code dev2 0 4096 3584 1536).getD 512 0 = 0 ∧
    (read_metadata_text_spec dev2 0 4096 3584 1536).getD 512 0 = 7 := by
  decide

/-- C3: the claim says the allocator returns the first fitting free range in
ascending PV-name order.  In `c3vg` both PVs "a" and "b" have the fitting
free range `(2, 8)` for a request of 3, yet the search returns `("b", 2)`
and the created LV stripes on "b": the source's `break` leaves only the
inner loop, so a later PV overwrites the accumulator. -/
theorem c3_allocator_divergence :
    VG.free_areas c3vg = [("a", [(2, 8)]), ("b", [(2, 8)])] ∧
    find_contig (VG.free_areas c3vg) 3 = some ("b", 2) ∧
    (mapFind? (VG.new_linear_lv c3vg "w" "id-w" "host" 0 3).2.lvs "w").map
      (fun lv => lv.segments.map (fun s => s.stripes)) = some [[("b", 2)]] := by
  decide

/-- C4: the claim says `free_areas` is the complement of `used_areas` within
each PV and that a PV absent from the used map appears with the full range
`(0, pe_count)`.  In `c4vg` (one 10-extent PV, no LVs) the used map is empty
and the source's `free_areas` — which iterates only over PVs present in the
used map — is empty as well, so extent 0 of "pv0" is in neither map and an
allocation of a single extent on the all-free VG fails with no-space. -/
theorem c4_free_areas_divergence :
    c4vg.pvs = [("pv0", { pe_count := 10 })] ∧
    VG.used_areas c4vg = [] ∧
    VG.free_areas c4vg = [] ∧
    (VG.new_linear_lv c4vg "lvA" "id-a" "host" 0 1).1 =
      some "no contiguous area for new LV" := by
  decide

set_option maxRecDepth 40000 in
/-- C5: the claim says a sector starting with "LABELONE" whose stored label
CRC differs from the CRC32 of bytes 20..512 fails with a checksum error.
On `c5buf` (label at sector 0, stored CRC 0, computed CRC nonzero) the
source returns the parsed `LabelHeader` anyway: the CRC comparison at
pvlabel.rs lines 57-58 has an empty body. -/
theorem c5_label_crc_ignored :
    LabelHeader.from_buf c5buf =
      .ok { id := labelOne, sector := 0, crc := 0, offset := 0,
            label := [0, 0, 0, 0, 0, 0, 0, 0] } ∧
    read_le c5buf 16 4 ≠ crc32_calc (readRange c5buf 20 492) := by
  decide

set_option maxRecDepth 40000 in
/-- C6: the claim says a metadata area whose header fails validation is
skipped in favour of the next one.  On `dev6` the first area's header fails
its CRC check and the second area alone yields the valid record `[88]`, yet
reading both areas in order fails with the first area's header error: the
source's `try!` propagates it instead of continuing. -/
theorem c6_mda_fallback_divergence :
    read_metadata dev6 [{ offset := 0, size := 4096 }, { offset := 8192, size := 4096 }] =
      .error "MDA header checksum failure" ∧
    read_metadata dev6 [{ offset := 8192, size := 4096 }] = .ok [88] := by
  decide

set_option maxRecDepth 40000 in
/-- C7 as stated is false at a concrete successful commit: on `dev7` the
trace of `write_metadata` is exactly one text write followed by the header
sector write, and contains no barrier at all, while the claim requires a
write barrier after the text bytes and a second one after the header. -/
theorem c7_no_barrier_counterexample :
    write_metadata_events dev7 [{ offset := 0, size := 4096 }] [97] = .ok evs7 ∧
    IoEvent.barrier ∉ evs7 := by
  decide

/-- C7 (amended): within one commit of `write_metadata` to a metadata area,
all text bytes are written before the header sector: the trace is the text
writes followed by exactly one header-sector write carrying the recomputed
raw_locn 0 and header CRC; the concatenated data of the text writes is the
whole text, every event before the header write is a write, and no write
barrier is issued anywhere (the source has no barrier operation). -/
theorem c7_commit_order (dev : ℕ → ℕ) (area : PvArea) (text : List ℕ) (hdr : List ℕ)
    (hh : read_mda_header dev area = .ok hdr)
    (hig : (rlocn0_or_init hdr).ignored = false)
    (ha : start_off_code (rlocn0_or_init hdr).offset (rlocn0_or_init hdr).size area.size % 512 = 0)
    (hb : (area.size - start_off_code (rlocn0_or_init hdr).offset (rlocn0_or_init hdr).size area.size) % 512 = 0) :
    ∃ tws : List IoEvent,
      write_area dev area text = .ok (tws ++
        [IoEvent.write area.offset (write_mda_header_bytes (set_rlocn0 hdr
          { offset := start_off_code (rlocn0_or_init hdr).offset (rlocn0_or_init hdr).size area.size,
            size := text.length, checksum := crc32_calc text, ignored := false }))]) ∧
      IoEvent.barrier ∉ tws ∧
      (∀ e ∈ tws, ∃ ad d, e = IoEvent.write ad d) ∧
      (tws.map IoEvent.data).flatten = text := by
  unfold write_area
  rw [hh]
  simp only [hig]
  rw [if_neg (by simp : ¬(false = true)), if_pos ⟨ha, hb⟩]
  set so := start_off_code (rlocn0_or_init hdr).offset (rlocn0_or_init hdr).size area.size with hso
  by_cases ht : area.size - so ≠ 0
  · simp only [if_pos ht]
    by_cases hw : (area.size - so) ⊓ text.length ≠ text.length
    · simp only [if_pos hw]
      refine ⟨[IoEvent.write (area.offset + so) (List.take ((area.size - so) ⊓ text.length) text),
               IoEvent.write (area.offset + 512) (List.drop ((area.size - so) ⊓ text.length) text)],
              ?_, by simp, ?_, ?_⟩
      · simp [write_mda_header_events]
      · intro e he
        rcases List.mem_cons.mp he with h | h
        · exact ⟨_, _, h⟩
        · exact ⟨_, _, by simpa using h⟩
      · simp [IoEvent.data, List.take_append_drop]
    · simp only [if_neg hw]
      push_neg at hw
      refine ⟨[IoEvent.write (area.offset + so) (List.take ((area.size - so) ⊓ text.length) text)],
              ?_, by simp, ?_, ?_⟩
      · simp [write_mda_header_events]
      · intro e he
        exact ⟨_, _, by simpa using he⟩
      · simp [IoEvent.data, hw]
  · simp only [if_neg ht]
    push_neg at ht
    by_cases h0 : (0 : ℕ) ≠ text.length
    · simp only [if_pos h0]
      refine ⟨[IoEvent.write (area.offset + 512) (List.drop 0 text)], ?_, by simp, ?_, ?_⟩
      · simp [write_mda_header_events]
      · intro e he
        exact ⟨_, _, by simpa using he⟩
      · simp [IoEvent.data]
    · simp only [if_neg h0]
      push_neg at h0
      refine ⟨[], ?_, by simp, by simp, ?_⟩
      · simp [write_mda_header_events]
      · simp [List.length_eq_zero.mp h0.symm]

set_option maxRecDepth 40000 in
/-- Witness for C7 (amended) at the concrete device `dev7` (valid header, no
raw_locn) committing the text `[97, 0]`. -/
theorem c7_commit_order_witness :
    ∃ tws : List IoEvent,
      write_area dev7 { offset := 0, size := 4096 } [97, 0] = .ok (tws ++
        [IoEvent.write (PvArea.mk 0 4096).offset (write_mda_header_bytes (set_rlocn0 hdrNoRlocn
          { offset := start_off_code (rlocn0_or_init hdrNoRlocn).offset (rlocn0_or_init hdrNoRlocn).size (PvArea.mk 0 4096).size,
            size := ([97, 0] : List ℕ).length, checksum := crc32_calc [97, 0], ignored := false }))]) ∧
      IoEvent.barrier ∉ tws ∧
      (∀ e ∈ tws, ∃ ad d, e = IoEvent.write ad d) ∧
      (tws.map IoEvent.data).flatten = [97, 0] :=
  c7_commit_order dev7 { offset := 0, size := 4096 } [97, 0] hdrNoRlocn
    (by decide) (by decide) (by decide) (by decide)

/-- C8: when `new_linear_lv(name, n)` succeeds, `extents_in_use` grows by
exactly `n` and the new LV has a single "striped" segment with exactly one
stripe placed at the start of a free range of length at least `n` from
`free_areas()` before the call; when the name already exists it fails with
the LV-exists error; on any failure the VG is unchanged. -/
theorem c8_new_linear_lv (vg : VG) (name lvid host : String) (t : Int) (n : ℕ) :
    (mapContains vg.lvs name = true →
      VG.new_linear_lv vg name lvid host t n = (some "LV already exists", vg)) ∧
    (∀ e, (VG.new_linear_lv vg name lvid host t n).1 = some e →
      (VG.new_linear_lv vg name lvid host t n).2 = vg) ∧
    ((VG.new_linear_lv vg name lvid host t n).1 = none →
      VG.extents_in_use (VG.new_linear_lv vg name lvid host t n).2 =
        VG.extents_in_use vg + n ∧
      ∃ lv seg,
        mapFind? (VG.new_linear_lv vg name lvid host t n).2.lvs name = some lv ∧
        lv.segments = [seg] ∧ seg.ty = "striped" ∧ seg.extent_count = n ∧
        ∃ pvn start areas len, seg.stripes = [(pvn, start)] ∧
          (pvn, areas) ∈ VG.free_areas vg ∧ (start, len) ∈ areas ∧ n ≤ len) := by
  refine ⟨?_, ?_, ?_⟩
  · intro hc
    simp [VG.new_linear_lv, hc]
  · intro e he
    by_cases hc : mapContains vg.lvs name
    · simp [VG.new_linear_lv, hc]
    · cases hfc : find_contig vg.free_areas n with
      | none => simp [VG.new_linear_lv, hc, hfc]
      | some pa =>
        exfalso
        simp [VG.new_linear_lv, hc, hfc] at he
  · intro hnone
    by_cases hc : mapContains vg.lvs name
    · exfalso
      simp [VG.new_linear_lv, hc] at hnone
    · cases hfc : find_contig vg.free_areas n with
      | none =>
        exfalso
        simp [VG.new_linear_lv, hc, hfc] at hnone
      | some pa =>
        obtain ⟨pvn, s⟩ := pa
        have hc2 : mapContains vg.lvs name = false := by
          simpa using hc
        obtain ⟨areas, len, hmem, hsl, hnl⟩ := find_contig_sound n vg.free_areas pvn s hfc
        simp only [VG.new_linear_lv, hc2, hfc]
        constructor
        · show ((mapInsert strLt vg.lvs name _).map (fun p => p.2.used_extents)).sum = _
          rw [sum_map_mapInsert strLt _ vg.lvs name _ hc2]
          simp [VG.extents_in_use, LV.used_extents]
        · exact ⟨_, _, mapFind?_mapInsert_self strLt vg.lvs name _, rfl, rfl, rfl,
            pvn, s, areas, len, rfl, hmem, hsl, hnl⟩

/-- Witness for C8: on `vg0` (free range `(3, 7)` on "pv0") the allocation
of 4 extents succeeds and the conclusions hold concretely. -/
theorem c8_new_linear_lv_witness :
    VG.extents_in_use (VG.new_linear_lv vg0 "lvA" "uuid-1" "host" 0 4).2 =
      VG.extents_in_use vg0 + 4 ∧
    ∃ lv seg,
      mapFind? (VG.new_linear_lv vg0 "lvA" "uuid-1" "host" 0 4).2.lvs "lvA" = some lv ∧
      lv.segments = [seg] ∧ seg.ty = "striped" ∧ seg.extent_count = 4 ∧
      ∃ pvn start areas len, seg.stripes = [(pvn, start)] ∧
        (pvn, areas) ∈ VG.free_areas vg0 ∧ (start, len) ∈ areas ∧ 4 ≤ len :=
  (c8_new_linear_lv vg0 "lvA" "uuid-1" "host" 0 4).2.2 (by decide)

/-- C9: label discovery scans sectors 0..3 in order; the first sector
beginning with "LABELONE" decides the outcome: if its stored sector field
equals its index the parsed header (with that sector index) is returned,
otherwise parsing fails with the sector-mismatch error; if no sector carries
the magic the scan fails with "Label not found". -/
theorem c9_label_scan (buf : ℕ → ℕ) :
    ((∀ y, y < 4 → hasLabelAt buf y = false) →
      LabelHeader.from_buf buf = .error "Label not found") ∧
    (∀ x, x < 4 → hasLabelAt buf x = true →
      (∀ y, y < x → hasLabelAt buf y = false) →
      ((read_le buf (x * 512 + 8) 8 = x →
        LabelHeader.from_buf buf = .ok
          { id := readRange buf (x * 512) 8, sector := x,
            crc := read_le buf (x * 512 + 16) 4,
            offset := read_le buf (x * 512 + 20) 4 + x * 512,
            label := readRange buf (x * 512 + 24) 8 }) ∧
       (read_le buf (x * 512 + 8) 8 ≠ x →
        LabelHeader.from_buf buf =
          .error "Sector field should equal sector count"))) := by
  have hrange : List.range 4 = [0, 1, 2, 3] := rfl
  constructor
  · intro hall
    unfold LabelHeader.from_buf
    rw [hrange, labelScan_skip _ _ _ (hall 0 (by omega)),
        labelScan_skip _ _ _ (hall 1 (by omega)),
        labelScan_skip _ _ _ (hall 2 (by omega)),
        labelScan_skip _ _ _ (hall 3 (by omega))]
    rfl
  · intro x hx hfound hfirst
    unfold LabelHeader.from_buf
    rw [hrange]
    interval_cases x
    · rw [labelScan_hit _ _ _ hfound]
      constructor
      · intro h64
        rw [if_pos h64, h64]
      · intro h64
        rw [if_neg h64]
    · rw [labelScan_skip _ _ _ (hfirst 0 (by omega)), labelScan_hit _ _ _ hfound]
      constructor
      · intro h64
        rw [if_pos h64, h64]
      · intro h64
        rw [if_neg h64]
    · rw [labelScan_skip _ _ _ (hfirst 0 (by omega)),
          labelScan_skip _ _ _ (hfirst 1 (by omega)), labelScan_hit _ _ _ hfound]
      constructor
      · intro h64
        rw [if_pos h64, h64]
      · intro h64
        rw [if_neg h64]
    · rw [labelScan_skip _ _ _ (hfirst 0 (by omega)),
          labelScan_skip _ _ _ (hfirst 1 (by omega)),
          labelScan_skip _ _ _ (hfirst 2 (by omega)), labelScan_hit _ _ _ hfound]
      constructor
      · intro h64
        rw [if_pos h64, h64]
      · intro h64
        rw [if_neg h64]

/-- Witness for C9: on the concrete buffer `c9buf` the label is found at
sector 1 with a matching sector field, so parsing succeeds with sector 1. -/
theorem c9_label_scan_witness :
    LabelHeader.from_buf c9buf = .ok
      { id := readRange c9buf (1 * 512) 8, sector := 1,
        crc := read_le c9buf (1 * 512 + 16) 4,
        offset := read_le c9buf (1 * 512 + 20) 4 + 1 * 512,
        label := readRange c9buf (1 * 512 + 24) 8 } :=
  (((c9_label_scan c9buf).2 1 (by decide) (by decide) (by decide)).1 (by decide))

/-- Unfolding equation of `write_areas` on a cons cell. -/
theorem write_areas_cons (dev : ℕ → ℕ) (text : List ℕ) (a : PvArea) (l : List PvArea) :
    write_areas dev text (a :: l) =
      match write_area dev a text with
      | .error e => .error e
      | .ok evs =>
        match write_areas dev text l with
        | .error e => .error e
        | .ok evs2 => .ok (evs ++ evs2) := rfl

/-- C10: an area whose raw_locn 0 has the ignored bit set is skipped
entirely by `write_metadata`: it contributes no write events (neither text
nor its header sector), and the trace of a commit over any area list
containing it equals the trace over the same list without it, so the other
areas of the PV are still written exactly as before. -/
theorem c10_ignored_skip (dev : ℕ → ℕ) (pre post : List PvArea) (a : PvArea)
    (mapBytes : List ℕ) (hdr : List ℕ) (rl : RawLocn)
    (hh : read_mda_header dev a = .ok hdr)
    (hr : get_rlocn0 hdr = some rl) (hi : rl.ignored = true) :
    write_area dev a (mapBytes ++ [0]) = .ok [] ∧
    write_metadata_events dev (pre ++ a :: post) mapBytes =
      write_metadata_events dev (pre ++ post) mapBytes := by
  have hskip : ∀ text : List ℕ, write_area dev a text = .ok [] := by
    intro text
    unfold write_area
    rw [hh]
    simp [rlocn0_or_init, hr, hi]
  refine ⟨hskip _, ?_⟩
  unfold write_metadata_events
  induction pre with
  | nil =>
    simp only [List.nil_append]
    rw [write_areas_cons, hskip]
    cases hws : write_areas dev (mapBytes ++ [0]) post <;> simp
  | cons p pre2 ih =>
    simp only [List.cons_append]
    rw [write_areas_cons, write_areas_cons, ih]

set_option maxRecDepth 40000 in
/-- Witness for C10 on the concrete device `dev10`: the first area's
raw_locn is ignored, so it contributes nothing and the two-area commit
equals the one-area commit over the second area. -/
theorem c10_ignored_skip_witness :
    write_area dev10 { offset := 0, size := 4096 } ([97] ++ [0]) = .ok [] ∧
    write_metadata_events dev10
        ([] ++ { offset := 0, size := 4096 } :: [{ offset := 8192, size := 4096 }]) [97] =
      write_metadata_events dev10 ([] ++ [{ offset := 8192, size := 4096 }]) [97] :=
  c10_ignored_skip dev10 [] [{ offset := 8192, size := 4096 }] { offset := 0, size := 4096 }
    [97] hdrIgnored { offset := 512, size := 0, checksum := 0, ignored := true }
    (by decide) (by decide) rfl
